import Mathlib

/-!
Verification of the layout DOM-wrapper layer (`src/components/layout/wrapper.rs`).

The development shallowly embeds the data model and the operations of the
wrapper: the per-node side table (`LayoutDataWrapper`), the full-access view
(`LayoutNode`), the element view (`LayoutElement`), the race-restricted view
(`ThreadSafeLayoutNode`) with its synthesized before/after pseudo-element
children, the restricted children iterator, and the postorder mutation
traversal.  Rust panics (`panic!`, `unwrap`, `expect`) are modelled by an
`Option` result: `none` means the operation aborts.
-/

/-- Minimal model of `style::computed_values::display::T`.  The wrapper only
copies display values around, so a few representative variants suffice. -/
inductive Display where
  | inline
  | block
  | inlineBlock
  | displayNone
deriving DecidableEq, Repr

/-- Minimal model of `style::computed_values::white_space::T`. -/
inductive WhiteSpace where
  | normal
  | pre
  | nowrap
deriving DecidableEq, Repr

/-- Model of `style::computed_values::content::ContentItem`.  The wrapper only
ever constructs the `String` variant. -/
inductive ContentItem where
  | String (s : String)
deriving DecidableEq, Repr

/-- Model of `style::computed_values::content::T`: the resolved value of the
`content` property. -/
inductive ContentT where
  | normal
  | noContent
  | Content (value : List ContentItem)
deriving DecidableEq, Repr

/-- The slice of a computed style (`ComputedValues`) that the wrapper reads:
`get_box().display`, `get_box().content` and `get_inheritedtext().white_space`. -/
structure Style where
  display : Display
  content : ContentT
  white_space : WhiteSpace
deriving DecidableEq, Repr

/-- Modelled from the spec: `PrivateLayoutData` (`data.rs`, not under `src/`)
holds the side table's per-node fields used by the wrapper: the optional
before/after pseudo-element styles, the restyle-damage bitset and the generic
layout-data flag bitset (both bitsets modelled as `Nat`). -/
structure PrivateLayoutData where
  before_style : Option Style
  after_style : Option Style
  restyle_damage : Nat
  flags : Nat
deriving DecidableEq, Repr

/-- Modelled from the spec: `PrivateLayoutData::new()` (`data.rs`, not under
`src/`) — the default side table: no styles, no damage, no flags. -/
def PrivateLayoutData.new : PrivateLayoutData :=
  { before_style := none, after_style := none, restyle_damage := 0, flags := 0 }

/-- Model of `script::dom::node::SharedLayoutData`: the normal computed style slot. -/
structure SharedLayoutData where
  style : Option Style
deriving DecidableEq, Repr

/-- Model of `LayoutDataWrapper` (`data.rs`): the side table attached to a node.
The channel is opaque; it is modelled by a numeric identifier. -/
structure LayoutDataWrapper where
  chan : Option Nat
  shared_data : SharedLayoutData
  data : PrivateLayoutData
deriving DecidableEq, Repr

/-- The element categories the wrapper's operations distinguish
(`HTMLInputElementCast`, `HTMLTextAreaElementCast`, everything else). -/
inductive ElemKind where
  | Input (value : String) (size : Nat)
  | TextArea (value : String)
  | OtherElement
deriving DecidableEq, Repr

/-- The node categories the wrapper's operations distinguish (`NodeTypeId`
restricted to what the embedded operations inspect). -/
inductive NodeKind where
  | Document
  | Text (data : String)
  | Comment (data : String)
  | Element (kind : ElemKind)
deriving DecidableEq, Repr

/-- The document tree node.  `id` models the stable node address (used for
`OpaqueNode` identity), `layoutData` is the side table slot, `children` the
ordered child list. -/
inductive DomNode where
  | mk (id : Nat) (kind : NodeKind) (layoutData : Option LayoutDataWrapper)
       (children : List DomNode)

def DomNode.id : DomNode → Nat
  | .mk i _ _ _ => i

def DomNode.kind : DomNode → NodeKind
  | .mk _ k _ _ => k

def DomNode.layoutData : DomNode → Option LayoutDataWrapper
  | .mk _ _ ld _ => ld

def DomNode.children : DomNode → List DomNode
  | .mk _ _ _ cs => cs

/-- Replaces the side table slot of a node, leaving everything else unchanged.
Models the in-place mutation performed through `mutate_layout_data()`. -/
def DomNode.withLayoutData : DomNode → Option LayoutDataWrapper → DomNode
  | .mk i k _ cs, ld => .mk i k ld cs

theorem DomNode.layoutData_withLayoutData (n : DomNode) (ld : Option LayoutDataWrapper) :
    (n.withLayoutData ld).layoutData = ld := by
  cases n
  rfl

/-- Model of `PseudoElementType` (`wrapper.rs`, lines 577-598). -/
inductive PseudoElementType where
  | Normal
  | Before (display : Display)
  | After (display : Display)
deriving DecidableEq, Repr

/-- `PseudoElementType::is_before`. -/
def PseudoElementType.is_before : PseudoElementType → Bool
  | .Before _ => true
  | _ => false

/-- `PseudoElementType::is_after`. -/
def PseudoElementType.is_after : PseudoElementType → Bool
  | .After _ => true
  | _ => false

/-- The race-restricted view (`ThreadSafeLayoutNode`, `wrapper.rs` lines
600-608): a wrapped node plus a pseudo-element tag.  Because the underlying
Rust handle is a pointer into the sibling-linked DOM, the embedding carries
`rest`, the list of following siblings of `node` in its parent — this is what
gives `next_sibling_ref` its meaning.  A handle created for a tree root has
`rest = []`. -/
structure ThreadSafeLayoutNode where
  node : DomNode
  rest : List DomNode
  pseudo : PseudoElementType

/-- `ThreadSafeLayoutNode::with_pseudo`: same node, different pseudo tag. -/
def ThreadSafeLayoutNode.with_pseudo (h : ThreadSafeLayoutNode)
    (pseudo : PseudoElementType) : ThreadSafeLayoutNode :=
  { h with pseudo := pseudo }

/-- `ThreadSafeLayoutNode::has_before_pseudo` (`wrapper.rs` 741-746):
`borrow_layout_data().as_ref().unwrap().data.before_style.is_some()`.
`none` models the `unwrap` panic when no side table is attached. -/
def ThreadSafeLayoutNode.has_before_pseudo (h : ThreadSafeLayoutNode) : Option Bool :=
  h.node.layoutData.map fun ld => ld.data.before_style.isSome

/-- `ThreadSafeLayoutNode::has_after_pseudo` (`wrapper.rs` 748-753). -/
def ThreadSafeLayoutNode.has_after_pseudo (h : ThreadSafeLayoutNode) : Option Bool :=
  h.node.layoutData.map fun ld => ld.data.after_style.isSome

/-- `ThreadSafeLayoutNode::get_before_display` (`wrapper.rs` 725-731): unwraps
the side table and the before style, then reads `get_box().display`. -/
def ThreadSafeLayoutNode.get_before_display (h : ThreadSafeLayoutNode) : Option Display :=
  h.node.layoutData.bind fun ld => ld.data.before_style.map fun st => st.display

/-- `ThreadSafeLayoutNode::get_after_display` (`wrapper.rs` 733-739). -/
def ThreadSafeLayoutNode.get_after_display (h : ThreadSafeLayoutNode) : Option Display :=
  h.node.layoutData.bind fun ld => ld.data.after_style.map fun st => st.display

/-- The handle for the first element of a child list, as produced by
`first_child_ref().map(|node| self.new_with_this_lifetime(&node))`: the head
node together with its following siblings, tagged `Normal`. -/
def headHandle : List DomNode → Option ThreadSafeLayoutNode
  | [] => none
  | c :: cs => some ⟨c, cs, PseudoElementType.Normal⟩

/-- `ThreadSafeLayoutNode::first_child` (`wrapper.rs` 665-677).  The outer
`Option` models the panic inside `has_before_pseudo`/`get_before_display`
when the side table is missing. -/
def ThreadSafeLayoutNode.first_child (h : ThreadSafeLayoutNode) :
    Option (Option ThreadSafeLayoutNode) :=
  if h.pseudo ≠ PseudoElementType.Normal then
    some none
  else
    match h.has_before_pseudo with
    | none => none
    | some true =>
      h.get_before_display.map fun d =>
        some (h.with_pseudo (PseudoElementType.Before d))
    | some false => some (headHandle h.node.children)

/-- `ThreadSafeLayoutNode::next_sibling` (`wrapper.rs` 679-686): for a
`Before`-tagged handle, the underlying node's first child; otherwise the
underlying node's next sibling.  Touches no side-table state, so it cannot
panic. -/
def ThreadSafeLayoutNode.next_sibling (h : ThreadSafeLayoutNode) :
    Option ThreadSafeLayoutNode :=
  if h.pseudo.is_before then
    headHandle h.node.children
  else
    headHandle h.rest

/-- `ThreadSafeLayoutNodeChildrenIterator` (`wrapper.rs` 996-999). -/
structure ThreadSafeLayoutNodeChildrenIterator where
  current_node : Option ThreadSafeLayoutNode
  parent_node : Option ThreadSafeLayoutNode

/-- One step of `ThreadSafeLayoutNodeChildrenIterator::next` (`wrapper.rs`
1001-1048).  Returns the yielded item (`none` = iteration finished) and the
updated iterator; the outer `Option` models the panic inside
`has_after_pseudo`/`get_after_display`. -/
def childrenIterNext (it : ThreadSafeLayoutNodeChildrenIterator) :
    Option (Option ThreadSafeLayoutNode × ThreadSafeLayoutNodeChildrenIterator) :=
  match it.current_node with
  | some node =>
    if node.pseudo.is_after then
      some (none, it)
    else
      match it.parent_node with
      | some parent_node =>
        if parent_node.pseudo = PseudoElementType.Normal then
          some (some node, { it with current_node := node.next_sibling })
        else
          some (some node, { it with current_node := none })
      | none => some (some node, it)
  | none =>
    match it.parent_node with
    | some parent_node =>
      match parent_node.has_after_pseudo with
      | none => none
      | some true =>
        if parent_node.pseudo = PseudoElementType.Normal then
          match parent_node.get_after_display with
          | none => none
          | some d =>
            let pseudo_after_node :=
              some (parent_node.with_pseudo (PseudoElementType.After d))
            some (pseudo_after_node, { it with current_node := pseudo_after_node })
          else
            some (none, { it with current_node := none })
      | some false => some (none, it)
    | none => some (none, it)

/-- `ThreadSafeLayoutNode::children` (`wrapper.rs` 689-694): builds the
iterator from `first_child` (which may panic) and the node itself as parent. -/
def ThreadSafeLayoutNode.children (h : ThreadSafeLayoutNode) :
    Option ThreadSafeLayoutNodeChildrenIterator :=
  h.first_child.map fun fc => { current_node := fc, parent_node := some h }

/-- Drains the children iterator into the list of yielded handles.  `fuel`
bounds the number of `next` calls; `none` is returned on panic or fuel
exhaustion. -/
def iterToList : Nat → ThreadSafeLayoutNodeChildrenIterator →
    Option (List ThreadSafeLayoutNode)
  | 0, _ => none
  | fuel + 1, it =>
    match childrenIterNext it with
    | none => none
    | some (none, _) => some []
    | some (some h, it1) => (iterToList fuel it1).map fun l => h :: l

/-- The full child sequence produced by the restricted view's `children()`. -/
def childrenSeq (h : ThreadSafeLayoutNode) (fuel : Nat) :
    Option (List ThreadSafeLayoutNode) :=
  h.children.bind (iterToList fuel)

/-- The handles yielded for an ordinary child list, in document order. -/
def handleList : List DomNode → List ThreadSafeLayoutNode
  | [] => []
  | c :: cs => ⟨c, cs, PseudoElementType.Normal⟩ :: handleList cs

theorem handleList_length (l : List DomNode) : (handleList l).length = l.length := by
  induction l with
  | nil => rfl
  | cons c cs ih => simp [handleList, ih]

mutual

/-- Number of nodes in a subtree. -/
def sz : DomNode → Nat
  | .mk _ _ _ cs => 1 + szList cs

/-- Number of nodes in a forest. -/
def szList : List DomNode → Nat
  | [] => 0
  | c :: cs => sz c + szList cs

end

theorem sz_pos (n : DomNode) : 1 ≤ sz n := by
  cases n
  simp [sz]

theorem sz_def (n : DomNode) : sz n = 1 + szList n.children := by
  cases n
  simp [sz, DomNode.children]

/-- Model of the `PostorderNodeMutTraversal` trait (`wrapper.rs` 1066-1076).
The visitor's mutable state is made explicit: `process` threads it and
returns the continue/stop boolean. -/
structure PostorderNodeMutTraversal (σ : Type) where
  process : σ → ThreadSafeLayoutNode → Bool × σ
  should_prune : σ → ThreadSafeLayoutNode → Bool

/-- Termination measure for `traverse_postorder_mut`. -/
def travMeasure (h : ThreadSafeLayoutNode) : Nat :=
  match h.pseudo with
  | PseudoElementType.Normal => 3 * sz h.node
  | _ => 1

/-- Termination measure for the sibling loop inside `traverse_postorder_mut`. -/
def loopMeasure : Option ThreadSafeLayoutNode → Nat
  | none => 0
  | some k =>
    travMeasure k + 1 +
      (match k.pseudo with
       | PseudoElementType.Normal => 3 * szList k.rest
       | PseudoElementType.Before _ => 3 * szList k.node.children
       | PseudoElementType.After _ => 3 * szList k.rest)

theorem loopMeasure_headHandle (l : List DomNode) :
    loopMeasure (headHandle l) = 3 * szList l + 1 ∨ l = [] := by
  cases l with
  | nil => exact Or.inr rfl
  | cons c cs =>
    left
    simp [headHandle, loopMeasure, travMeasure, szList]
    ring

theorem loopMeasure_headHandle_le (l : List DomNode) :
    loopMeasure (headHandle l) ≤ 3 * szList l + 1 := by
  rcases loopMeasure_headHandle l with hl | hl
  · omega
  · subst hl
    simp [headHandle, loopMeasure]

theorem loopMeasure_first_child (h : ThreadSafeLayoutNode)
    (fc : Option ThreadSafeLayoutNode)
    (hfc : h.first_child = some fc) : loopMeasure fc < travMeasure h := by
  obtain ⟨n, rest, ps⟩ := h
  cases ps with
  | Normal =>
    rw [ThreadSafeLayoutNode.first_child] at hfc
    simp only [ne_eq, not_true_eq_false, if_false, reduceIte] at hfc
    have hsz := sz_def n
    have hpos := sz_pos n
    cases hhb : ThreadSafeLayoutNode.has_before_pseudo ⟨n, rest, PseudoElementType.Normal⟩ with
    | none => rw [hhb] at hfc; cases hfc
    | some b =>
      rw [hhb] at hfc
      cases b with
      | true =>
        cases hgd : ThreadSafeLayoutNode.get_before_display ⟨n, rest, PseudoElementType.Normal⟩ with
        | none => rw [hgd] at hfc; cases hfc
        | some d =>
          rw [hgd] at hfc
          simp only [Option.map_some] at hfc
          cases hfc
          simp [loopMeasure, travMeasure, ThreadSafeLayoutNode.with_pseudo]
          omega
      | false =>
        simp only [Option.some.injEq] at hfc
        subst hfc
        have := loopMeasure_headHandle_le (DomNode.children n)
        simp only [travMeasure]
        simp only [DomNode.children] at *
        omega
  | Before d =>
    rw [ThreadSafeLayoutNode.first_child] at hfc
    simp at hfc
    subst hfc
    simp [loopMeasure, travMeasure]
  | After d =>
    rw [ThreadSafeLayoutNode.first_child] at hfc
    simp at hfc
    subst hfc
    simp [loopMeasure, travMeasure]

theorem travMeasure_lt_loopMeasure (k : ThreadSafeLayoutNode) :
    travMeasure k < loopMeasure (some k) := by
  rw [loopMeasure]
  omega

theorem loopMeasure_some_normal (n : DomNode) (rest : List DomNode) :
    loopMeasure (some ⟨n, rest, PseudoElementType.Normal⟩) =
      3 * sz n + 1 + 3 * szList rest := by
  simp [loopMeasure, travMeasure]

theorem loopMeasure_some_before (n : DomNode) (rest : List DomNode) (d : Display) :
    loopMeasure (some ⟨n, rest, PseudoElementType.Before d⟩) =
      2 + 3 * szList n.children := by
  simp [loopMeasure, travMeasure, DomNode.children]

theorem loopMeasure_some_after (n : DomNode) (rest : List DomNode) (d : Display) :
    loopMeasure (some ⟨n, rest, PseudoElementType.After d⟩) =
      2 + 3 * szList rest := by
  simp [loopMeasure, travMeasure]

theorem loopMeasure_next_sibling (k : ThreadSafeLayoutNode) :
    loopMeasure k.next_sibling < loopMeasure (some k) := by
  obtain ⟨n, rest, ps⟩ := k
  cases ps with
  | Normal =>
    have h1 := loopMeasure_headHandle_le rest
    have h2 := sz_pos n
    rw [ThreadSafeLayoutNode.next_sibling]
    simp only [PseudoElementType.is_before, Bool.false_eq_true, if_false, reduceIte]
    rw [loopMeasure_some_normal]
    omega
  | Before d =>
    have h1 := loopMeasure_headHandle_le n.children
    rw [ThreadSafeLayoutNode.next_sibling]
    simp only [PseudoElementType.is_before, reduceIte]
    rw [loopMeasure_some_before]
    omega
  | After d =>
    have h1 := loopMeasure_headHandle_le rest
    rw [ThreadSafeLayoutNode.next_sibling]
    simp only [PseudoElementType.is_before, Bool.false_eq_true, if_false, reduceIte]
    rw [loopMeasure_some_after]
    omega

mutual

/-- `ThreadSafeLayoutNode::traverse_postorder_mut` (`wrapper.rs` 782-799),
instrumented with the list of handles passed to `process`, in call order.
`none` models a panic (the `first_child` of an uninitialized node).  The Rust
body is: prune check; loop `opt_kid = first_child` / `opt_kid = kid.next_sibling()`
recursing into every kid, aborting on a `false` result; finally
`traversal.process(self)`. -/
def traverse_postorder_mut {σ : Type} (traversal : PostorderNodeMutTraversal σ)
    (h : ThreadSafeLayoutNode) (s : σ) :
    Option (Bool × σ × List ThreadSafeLayoutNode) :=
  if traversal.should_prune s h then
    some (true, s, [])
  else
    match _hfc : h.first_child with
    | none => none
    | some fc =>
      match traverseKidsLoop traversal fc s with
      | none => none
      | some (false, s1, tr) => some (false, s1, tr)
      | some (true, s1, tr) =>
        let r := traversal.process s1 h
        some (r.1, r.2, tr ++ [h])
termination_by travMeasure h
decreasing_by
  exact loopMeasure_first_child _ _ (by assumption)

/-- The `while let Some(kid)` loop of `traverse_postorder_mut`: traverses the
sibling chain starting at `opt_kid`, threading the visitor state and
accumulating the process trace; stops with `false` as soon as a kid's subtree
traversal reports `false`. -/
def traverseKidsLoop {σ : Type} (traversal : PostorderNodeMutTraversal σ)
    (opt_kid : Option ThreadSafeLayoutNode) (s : σ) :
    Option (Bool × σ × List ThreadSafeLayoutNode) :=
  match opt_kid with
  | none => some (true, s, [])
  | some kid =>
    match traverse_postorder_mut traversal kid s with
    | none => none
    | some (false, s1, tr) => some (false, s1, tr)
    | some (true, s1, tr) =>
      match traverseKidsLoop traversal kid.next_sibling s1 with
      | none => none
      | some (b2, s2, tr2) => some (b2, s2, tr ++ tr2)
termination_by loopMeasure opt_kid
decreasing_by
  · exact travMeasure_lt_loopMeasure _
  · exact loopMeasure_next_sibling _

end

/-- Whether a node's side table holds a resolved before-style (total variant
of `has_before_pseudo`, `false` when no side table is attached). -/
def hasBeforeB (n : DomNode) : Bool :=
  match n.layoutData with
  | some ld => ld.data.before_style.isSome
  | none => false

/-- The display of a node's resolved before-style (`Display.inline` dummy when
absent; only read under `hasBeforeB`). -/
def beforeDisplayD (n : DomNode) : Display :=
  match n.layoutData with
  | some ld =>
    match ld.data.before_style with
    | some st => st.display
    | none => Display.inline
  | none => Display.inline

mutual

/-- The order in which a full (never-pruning, never-failing) postorder
traversal of the handle `⟨n, rest, Normal⟩` passes handles to `process`:
the `Before` pseudo-handle first when a before-style is resolved, then each
ordinary child's subtree in document order, finally the node itself.  The
`After` pseudo-handle never appears: `first_child`/`next_sibling` never
produce it. -/
def postTraceN (n : DomNode) (rest : List DomNode) : List ThreadSafeLayoutNode :=
  match n with
  | .mk i k ld cs =>
    (if hasBeforeB (.mk i k ld cs) then
       [⟨.mk i k ld cs, rest, PseudoElementType.Before (beforeDisplayD (.mk i k ld cs))⟩]
     else []) ++
    traceKids cs ++ [⟨.mk i k ld cs, rest, PseudoElementType.Normal⟩]

/-- The process order for a forest of ordinary children. -/
def traceKids : List DomNode → List ThreadSafeLayoutNode
  | [] => []
  | c :: cs => postTraceN c cs ++ traceKids cs

end

mutual

/-- Every node of the subtree has a side table attached (the state after the
`initialize_layout_data` seeding pass). -/
def allData : DomNode → Bool
  | .mk _ _ ld cs => ld.isSome && allDataList cs

/-- Every node of the forest has a side table attached. -/
def allDataList : List DomNode → Bool
  | [] => true
  | c :: cs => allData c && allDataList cs

end

theorem allData_def (n : DomNode) :
    allData n = (n.layoutData.isSome && allDataList n.children) := by
  cases n
  simp [allData, DomNode.layoutData, DomNode.children]

theorem postTraceN_def (n : DomNode) (rest : List DomNode) :
    postTraceN n rest =
      (if hasBeforeB n then
         [⟨n, rest, PseudoElementType.Before (beforeDisplayD n)⟩]
       else []) ++
      traceKids n.children ++ [⟨n, rest, PseudoElementType.Normal⟩] := by
  cases n
  rw [postTraceN]
  rfl

theorem postTraceN_getLast (n : DomNode) (rest : List DomNode) :
    (postTraceN n rest).getLast? = some ⟨n, rest, PseudoElementType.Normal⟩ := by
  rw [postTraceN_def, List.append_assoc, List.getLast?_append]
  simp

theorem szList_cons (c : DomNode) (cs : List DomNode) :
    szList (c :: cs) = sz c + szList cs := by
  rw [szList]

theorem first_child_normal_before (n : DomNode) (rest : List DomNode)
    (ld : LayoutDataWrapper) (st : Style)
    (hld : n.layoutData = some ld) (hb : ld.data.before_style = some st) :
    ThreadSafeLayoutNode.first_child ⟨n, rest, PseudoElementType.Normal⟩ =
      some (some ⟨n, rest, PseudoElementType.Before st.display⟩) := by
  rw [ThreadSafeLayoutNode.first_child]
  simp [ThreadSafeLayoutNode.has_before_pseudo, ThreadSafeLayoutNode.get_before_display,
    ThreadSafeLayoutNode.with_pseudo, hld, hb]

theorem first_child_normal_nobefore (n : DomNode) (rest : List DomNode)
    (ld : LayoutDataWrapper)
    (hld : n.layoutData = some ld) (hb : ld.data.before_style = none) :
    ThreadSafeLayoutNode.first_child ⟨n, rest, PseudoElementType.Normal⟩ =
      some (headHandle n.children) := by
  rw [ThreadSafeLayoutNode.first_child]
  simp [ThreadSafeLayoutNode.has_before_pseudo, hld, hb]

theorem first_child_pseudo (n : DomNode) (rest : List DomNode)
    (ps : PseudoElementType) (hps : ps ≠ PseudoElementType.Normal) :
    ThreadSafeLayoutNode.first_child ⟨n, rest, ps⟩ = some none := by
  rw [ThreadSafeLayoutNode.first_child]
  simp [hps]

theorem next_sibling_before (n : DomNode) (rest : List DomNode) (d : Display) :
    ThreadSafeLayoutNode.next_sibling ⟨n, rest, PseudoElementType.Before d⟩ =
      headHandle n.children := by
  rw [ThreadSafeLayoutNode.next_sibling]
  simp [PseudoElementType.is_before]

theorem next_sibling_normal (n : DomNode) (rest : List DomNode) :
    ThreadSafeLayoutNode.next_sibling ⟨n, rest, PseudoElementType.Normal⟩ =
      headHandle rest := by
  rw [ThreadSafeLayoutNode.next_sibling]
  simp [PseudoElementType.is_before]

theorem next_sibling_after (n : DomNode) (rest : List DomNode) (d : Display) :
    ThreadSafeLayoutNode.next_sibling ⟨n, rest, PseudoElementType.After d⟩ =
      headHandle rest := by
  rw [ThreadSafeLayoutNode.next_sibling]
  simp [PseudoElementType.is_before]

theorem hasBeforeB_true (n : DomNode) (ld : LayoutDataWrapper) (st : Style)
    (hld : n.layoutData = some ld) (hb : ld.data.before_style = some st) :
    hasBeforeB n = true ∧ beforeDisplayD n = st.display := by
  constructor
  · rw [hasBeforeB, hld]
    show ld.data.before_style.isSome = true
    rw [hb]
    rfl
  · rw [beforeDisplayD, hld]
    show (match ld.data.before_style with
          | some st => st.display
          | none => Display.inline) = st.display
    rw [hb]

theorem hasBeforeB_false (n : DomNode) (ld : LayoutDataWrapper)
    (hld : n.layoutData = some ld) (hb : ld.data.before_style = none) :
    hasBeforeB n = false := by
  rw [hasBeforeB, hld]
  show ld.data.before_style.isSome = false
  rw [hb]
  rfl

theorem trav_before_handle {σ : Type} (v : PostorderNodeMutTraversal σ)
    (hp : ∀ s h, v.should_prune s h = false)
    (n : DomNode) (rest : List DomNode) (d : Display) (s : σ) :
    traverse_postorder_mut v ⟨n, rest, PseudoElementType.Before d⟩ s =
      some ((v.process s ⟨n, rest, PseudoElementType.Before d⟩).1,
            (v.process s ⟨n, rest, PseudoElementType.Before d⟩).2,
            [⟨n, rest, PseudoElementType.Before d⟩]) := by
  rw [traverse_postorder_mut]
  rw [hp]
  simp only [Bool.false_eq_true, if_false, reduceIte]
  rw [first_child_pseudo n rest (PseudoElementType.Before d) (by simp)]
  simp only
  rw [traverseKidsLoop]
  simp

theorem traverseKidsLoop_nil {σ : Type} (v : PostorderNodeMutTraversal σ) (s : σ) :
    traverseKidsLoop v none s = some (true, s, []) := by
  rw [traverseKidsLoop]

/-- The full-traversal characterization: with a visitor that never prunes and
whose `process` always continues, the postorder traversal of an initialized
subtree succeeds and passes handles to `process` exactly in `postTraceN`
order. -/
theorem trav_full_strong {σ : Type} (v : PostorderNodeMutTraversal σ)
    (hp : ∀ s h, v.should_prune s h = false)
    (hr : ∀ s h, (v.process s h).1 = true) :
    ∀ B : Nat,
      (∀ n : DomNode, sz n ≤ B → ∀ rest s, allData n = true →
        ∃ s2, traverse_postorder_mut v ⟨n, rest, PseudoElementType.Normal⟩ s =
          some (true, s2, postTraceN n rest)) ∧
      (∀ l : List DomNode, szList l ≤ B → allDataList l = true → ∀ s,
        ∃ s2, traverseKidsLoop v (headHandle l) s = some (true, s2, traceKids l)) := by
  intro B
  induction B with
  | zero =>
    constructor
    · intro n hn
      exact absurd hn (by have := sz_pos n; omega)
    · intro l hl hd s
      cases l with
      | nil => exact ⟨s, traverseKidsLoop_nil v s⟩
      | cons c cs =>
        exfalso
        have := sz_pos c
        rw [szList_cons] at hl
        omega
  | succ B ih =>
    have nodeP : ∀ n : DomNode, sz n ≤ B + 1 → ∀ rest s, allData n = true →
        ∃ s2, traverse_postorder_mut v ⟨n, rest, PseudoElementType.Normal⟩ s =
          some (true, s2, postTraceN n rest) := by
      intro n hn rest s hd
      have hkids : szList n.children ≤ B := by
        have := sz_def n
        omega
      rw [allData_def] at hd
      simp only [Bool.and_eq_true, Option.isSome_iff_exists] at hd
      obtain ⟨⟨ld, hld⟩, hdl⟩ := hd
      rw [traverse_postorder_mut, hp]
      simp only [Bool.false_eq_true, if_false, reduceIte]
      cases hb : ld.data.before_style with
      | some st =>
        rw [first_child_normal_before n rest ld st hld hb]
        simp only
        have hloopB :
            ∃ s2, traverseKidsLoop v
                (some ⟨n, rest, PseudoElementType.Before st.display⟩) s =
              some (true, s2,
                ⟨n, rest, PseudoElementType.Before st.display⟩ :: traceKids n.children) := by
          rw [traverseKidsLoop]
          rw [trav_before_handle v hp]
          rw [hr]
          simp only
          rw [next_sibling_before]
          obtain ⟨s2, hs2⟩ := (ih.2) n.children hkids hdl
            ((v.process s ⟨n, rest, PseudoElementType.Before st.display⟩).2)
          rw [hs2]
          exact ⟨s2, rfl⟩
        obtain ⟨s2, hs2⟩ := hloopB
        rw [hs2]
        simp only
        refine ⟨(v.process s2 ⟨n, rest, PseudoElementType.Normal⟩).2, ?_⟩
        rw [hr]
        rw [postTraceN_def]
        obtain ⟨hbt, hbd⟩ := hasBeforeB_true n ld st hld hb
        rw [hbt, hbd]
        simp
      | none =>
        rw [first_child_normal_nobefore n rest ld hld hb]
        simp only
        obtain ⟨s2, hs2⟩ := (ih.2) n.children hkids hdl s
        rw [hs2]
        simp only
        refine ⟨(v.process s2 ⟨n, rest, PseudoElementType.Normal⟩).2, ?_⟩
        rw [hr]
        rw [postTraceN_def]
        rw [hasBeforeB_false n ld hld hb]
        simp
    refine ⟨nodeP, ?_⟩
    intro l
    induction l with
    | nil =>
      intro _ _ s
      exact ⟨s, traverseKidsLoop_nil v s⟩
    | cons c cs ihl =>
      intro hl hd s
      rw [szList_cons] at hl
      simp only [allDataList, Bool.and_eq_true] at hd
      rw [headHandle, traverseKidsLoop]
      obtain ⟨s1, hs1⟩ := nodeP c (by have := sz_pos c; omega) cs s hd.1
      rw [hs1]
      simp only
      rw [next_sibling_normal]
      obtain ⟨s2, hs2⟩ := ihl (by omega) hd.2 s1
      rw [hs2]
      simp only
      exact ⟨s2, by rw [traceKids]⟩

theorem has_after_pseudo_some (n : DomNode) (rest : List DomNode)
    (ps : PseudoElementType) (ld : LayoutDataWrapper)
    (hld : n.layoutData = some ld) :
    ThreadSafeLayoutNode.has_after_pseudo ⟨n, rest, ps⟩ =
      some ld.data.after_style.isSome := by
  rw [ThreadSafeLayoutNode.has_after_pseudo]
  simp [hld]

theorem get_after_display_some (n : DomNode) (rest : List DomNode)
    (ps : PseudoElementType) (ld : LayoutDataWrapper) (st : Style)
    (hld : n.layoutData = some ld) (ha : ld.data.after_style = some st) :
    ThreadSafeLayoutNode.get_after_display ⟨n, rest, ps⟩ = some st.display := by
  rw [ThreadSafeLayoutNode.get_after_display]
  simp [hld, ha]

theorem iterNext_yield_normal (c : DomNode) (cs : List DomNode)
    (n : DomNode) (rest : List DomNode) :
    childrenIterNext ⟨some ⟨c, cs, PseudoElementType.Normal⟩,
                      some ⟨n, rest, PseudoElementType.Normal⟩⟩ =
      some (some ⟨c, cs, PseudoElementType.Normal⟩,
            ⟨headHandle cs, some ⟨n, rest, PseudoElementType.Normal⟩⟩) := by
  rw [childrenIterNext]
  simp [PseudoElementType.is_after, next_sibling_normal]

theorem iterNext_yield_before (d : Display) (n : DomNode) (rest : List DomNode) :
    childrenIterNext ⟨some ⟨n, rest, PseudoElementType.Before d⟩,
                      some ⟨n, rest, PseudoElementType.Normal⟩⟩ =
      some (some ⟨n, rest, PseudoElementType.Before d⟩,
            ⟨headHandle n.children, some ⟨n, rest, PseudoElementType.Normal⟩⟩) := by
  rw [childrenIterNext]
  simp [PseudoElementType.is_after, next_sibling_before]

theorem iterNext_stop_after (n1 : DomNode) (r1 : List DomNode) (d : Display)
    (p : Option ThreadSafeLayoutNode) :
    childrenIterNext ⟨some ⟨n1, r1, PseudoElementType.After d⟩, p⟩ =
      some (none, ⟨some ⟨n1, r1, PseudoElementType.After d⟩, p⟩) := by
  rw [childrenIterNext]
  simp [PseudoElementType.is_after]

theorem iterNext_emit_after (n : DomNode) (rest : List DomNode)
    (ld : LayoutDataWrapper) (st : Style)
    (hld : n.layoutData = some ld) (ha : ld.data.after_style = some st) :
    childrenIterNext ⟨none, some ⟨n, rest, PseudoElementType.Normal⟩⟩ =
      some (some ⟨n, rest, PseudoElementType.After st.display⟩,
            ⟨some ⟨n, rest, PseudoElementType.After st.display⟩,
             some ⟨n, rest, PseudoElementType.Normal⟩⟩) := by
  rw [childrenIterNext]
  simp only
  rw [has_after_pseudo_some n rest PseudoElementType.Normal ld hld]
  rw [ha]
  simp only [Option.isSome_some, reduceIte]
  rw [get_after_display_some n rest PseudoElementType.Normal ld st hld ha]
  simp [ThreadSafeLayoutNode.with_pseudo]

/-- Draining the iterator from the head of an ordinary child list yields the
children in document order followed by the `After`-tagged handle. -/
theorem collect_tail (n : DomNode) (rest : List DomNode)
    (ld : LayoutDataWrapper) (st : Style)
    (hld : n.layoutData = some ld) (ha : ld.data.after_style = some st) :
    ∀ (l : List DomNode) (extra : Nat),
      iterToList (l.length + 2 + extra)
          ⟨headHandle l, some ⟨n, rest, PseudoElementType.Normal⟩⟩ =
        some (handleList l ++ [⟨n, rest, PseudoElementType.After st.display⟩]) := by
  intro l
  induction l with
  | nil =>
    intro extra
    have hf : ([] : List DomNode).length + 2 + extra = (extra + 1) + 1 := by
      simp
      omega
    rw [hf, headHandle, iterToList]
    rw [iterNext_emit_after n rest ld st hld ha]
    simp only
    rw [iterToList]
    rw [iterNext_stop_after]
    simp [handleList]
  | cons c cs ih =>
    intro extra
    have hf : (c :: cs).length + 2 + extra = (cs.length + 2 + extra) + 1 := by
      simp
      omega
    rw [hf, headHandle, iterToList]
    rw [iterNext_yield_normal]
    simp only
    rw [ih extra]
    simp [handleList]

theorem collect_tail0 (n : DomNode) (rest : List DomNode)
    (ld : LayoutDataWrapper) (st : Style)
    (hld : n.layoutData = some ld) (ha : ld.data.after_style = some st)
    (l : List DomNode) :
    iterToList (l.length + 2)
        ⟨headHandle l, some ⟨n, rest, PseudoElementType.Normal⟩⟩ =
      some (handleList l ++ [⟨n, rest, PseudoElementType.After st.display⟩]) := by
  have := collect_tail n rest ld st hld ha l 0
  simpa using this

/-- C1: for a node whose side table holds both a resolved before-style and a
resolved after-style, the restricted view's `children()` yields the
`Before`-tagged handle strictly first, the ordinary DOM children in document
order in between, and the `After`-tagged handle strictly last, for a total
length of (1 for before) + (ordinary child count) + (1 for after). -/
theorem c1_children_sequence (n : DomNode) (rest : List DomNode)
    (ld : LayoutDataWrapper) (stb sta : Style)
    (hld : n.layoutData = some ld)
    (hb : ld.data.before_style = some stb)
    (ha : ld.data.after_style = some sta) :
    ∃ L, childrenSeq ⟨n, rest, PseudoElementType.Normal⟩ (n.children.length + 3) = some L ∧
      L = ⟨n, rest, PseudoElementType.Before stb.display⟩ ::
            (handleList n.children ++ [⟨n, rest, PseudoElementType.After sta.display⟩]) ∧
      L.length = 1 + n.children.length + 1 ∧
      L.head? = some ⟨n, rest, PseudoElementType.Before stb.display⟩ ∧
      L.getLast? = some ⟨n, rest, PseudoElementType.After sta.display⟩ := by
  refine ⟨_, ?_, rfl, ?_, ?_, ?_⟩
  · rw [childrenSeq, ThreadSafeLayoutNode.children]
    rw [first_child_normal_before n rest ld stb hld hb]
    show iterToList (n.children.length + 3)
        ⟨some ⟨n, rest, PseudoElementType.Before stb.display⟩,
         some ⟨n, rest, PseudoElementType.Normal⟩⟩ = _
    have hf : n.children.length + 3 = (n.children.length + 2) + 1 := by omega
    rw [hf, iterToList]
    rw [iterNext_yield_before]
    simp only
    rw [collect_tail0 n rest ld sta hld ha n.children]
    rfl
  · simp [handleList_length]
    omega
  · rfl
  · rw [show (⟨n, rest, PseudoElementType.Before stb.display⟩ ::
          (handleList n.children ++ [⟨n, rest, PseudoElementType.After sta.display⟩])) =
        ((⟨n, rest, PseudoElementType.Before stb.display⟩ :: handleList n.children) ++
          [⟨n, rest, PseudoElementType.After sta.display⟩]) from rfl]
    exact List.getLast?_concat _

/-- Example before-style for concrete test trees. -/
def styleB : Style :=
  { display := Display.block, content := ContentT.normal, white_space := WhiteSpace.normal }

/-- Example after-style for concrete test trees. -/
def styleA : Style :=
  { display := Display.inline, content := ContentT.normal, white_space := WhiteSpace.normal }

/-- Side table with both pseudo-element styles resolved. -/
def ldBoth : LayoutDataWrapper :=
  { chan := some 0, shared_data := { style := none },
    data := { before_style := some styleB, after_style := some styleA,
              restyle_damage := 0, flags := 0 } }

/-- Side table with only the after-style resolved. -/
def ldAfterOnly : LayoutDataWrapper :=
  { chan := some 0, shared_data := { style := none },
    data := { before_style := none, after_style := some styleA,
              restyle_damage := 0, flags := 0 } }

/-- Side table with no pseudo-element styles. -/
def ldPlain : LayoutDataWrapper :=
  { chan := some 0, shared_data := { style := none },
    data := { before_style := none, after_style := none,
              restyle_damage := 0, flags := 0 } }

/-- A leaf text node with a plain side table. -/
def childNode : DomNode := DomNode.mk 2 (NodeKind.Text "x") (some ldPlain) []

/-- An element with both pseudo styles and one ordinary child. -/
def nBoth : DomNode :=
  DomNode.mk 1 (NodeKind.Element ElemKind.OtherElement) (some ldBoth) [childNode]

/-- An element with only an after-style and no children. -/
def nAfter : DomNode :=
  DomNode.mk 3 (NodeKind.Element ElemKind.OtherElement) (some ldAfterOnly) []

/-- The restricted-view root handle over `nAfter`. -/
def hAfterRoot : ThreadSafeLayoutNode := ⟨nAfter, [], PseudoElementType.Normal⟩

/-- Witness for C1 at a concrete tree: one child, before- and after-styles. -/
theorem c1_children_sequence_witness :
    ∃ L, childrenSeq ⟨nBoth, [], PseudoElementType.Normal⟩ (nBoth.children.length + 3) = some L ∧
      L = ⟨nBoth, [], PseudoElementType.Before styleB.display⟩ ::
            (handleList nBoth.children ++ [⟨nBoth, [], PseudoElementType.After styleA.display⟩]) ∧
      L.length = 1 + nBoth.children.length + 1 ∧
      L.head? = some ⟨nBoth, [], PseudoElementType.Before styleB.display⟩ ∧
      L.getLast? = some ⟨nBoth, [], PseudoElementType.After styleA.display⟩ :=
  c1_children_sequence nBoth [] ldBoth styleB styleA rfl rfl rfl

/-- C3: when `should_prune` answers `true` for the subtree root, the postorder
traversal returns success immediately: `process` is invoked neither on the
node nor on any descendant (the instrumented process trace is empty) and the
result is `true` with the visitor state untouched. -/
theorem c3_prune_skips_subtree {σ : Type} (v : PostorderNodeMutTraversal σ)
    (h : ThreadSafeLayoutNode) (s : σ)
    (hp : v.should_prune s h = true) :
    traverse_postorder_mut v h s = some (true, s, []) := by
  rw [traverse_postorder_mut, hp]
  simp

/-- A visitor that prunes everything. -/
def pruneAllVisitor : PostorderNodeMutTraversal Unit :=
  { process := fun s _ => (true, s), should_prune := fun _ _ => true }

/-- Witness for C3 at a concrete node and visitor. -/
theorem c3_prune_skips_subtree_witness :
    traverse_postorder_mut pruneAllVisitor hAfterRoot () = some (true, (), []) :=
  c3_prune_skips_subtree pruneAllVisitor hAfterRoot () rfl

/-- No `After`-tagged handle ever appears in the postorder process trace. -/
theorem trace_no_after_strong :
    ∀ B : Nat,
      (∀ n : DomNode, sz n ≤ B → ∀ rest x, x ∈ postTraceN n rest →
        x.pseudo.is_after = false) ∧
      (∀ l : List DomNode, szList l ≤ B → ∀ x, x ∈ traceKids l →
        x.pseudo.is_after = false) := by
  intro B
  induction B with
  | zero =>
    constructor
    · intro n hn
      exact absurd hn (by have := sz_pos n; omega)
    · intro l hl x hx
      cases l with
      | nil => rw [traceKids] at hx; cases hx
      | cons c cs =>
        exfalso
        have := sz_pos c
        rw [szList_cons] at hl
        omega
  | succ B ih =>
    have nodeP : ∀ n : DomNode, sz n ≤ B + 1 → ∀ rest x, x ∈ postTraceN n rest →
        x.pseudo.is_after = false := by
      intro n hn rest x hx
      have hkids : szList n.children ≤ B := by
        have := sz_def n
        omega
      rw [postTraceN_def] at hx
      simp only [List.mem_append, List.mem_singleton] at hx
      rcases hx with (hx | hx) | hx
      · by_cases hbb : hasBeforeB n = true
        · rw [if_pos hbb] at hx
          simp only [List.mem_singleton] at hx
          subst hx
          rfl
        · rw [if_neg hbb] at hx
          cases hx
      · exact ih.2 n.children hkids x hx
      · subst hx
        rfl
    refine ⟨nodeP, ?_⟩
    intro l
    induction l with
    | nil =>
      intro _ x hx
      rw [traceKids] at hx
      cases hx
    | cons c cs ihl =>
      intro hl x hx
      rw [szList_cons] at hl
      rw [traceKids] at hx
      simp only [List.mem_append] at hx
      rcases hx with hx | hx
      · exact nodeP c (by have := sz_pos c; omega) cs x hx
      · exact ihl (by omega) x hx

theorem postTraceN_no_after (n : DomNode) (rest : List DomNode)
    (x : ThreadSafeLayoutNode) (hx : x ∈ postTraceN n rest) :
    x.pseudo.is_after = false :=
  (trace_no_after_strong (sz n)).1 n le_rfl rest x hx

/-- C2 (amended): for a never-pruning visitor whose `process` always
continues, the postorder traversal of an initialized subtree invokes
`process` exactly in `postTraceN` order: each node strictly after all the
processed handles of its subtree (it is the last entry of its own subtree
trace), with the `Before` pseudo-child participating in child-sequence order;
the `After` pseudo-child, although part of the restricted child sequence, is
never passed to `process`. -/
theorem c2_postorder_amended {σ : Type} (v : PostorderNodeMutTraversal σ)
    (hp : ∀ s h, v.should_prune s h = false)
    (hr : ∀ s h, (v.process s h).1 = true)
    (n : DomNode) (rest : List DomNode) (s : σ)
    (hd : allData n = true) :
    ∃ s2, traverse_postorder_mut v ⟨n, rest, PseudoElementType.Normal⟩ s =
        some (true, s2, postTraceN n rest) ∧
      (postTraceN n rest).getLast? = some ⟨n, rest, PseudoElementType.Normal⟩ ∧
      ∀ x ∈ postTraceN n rest, x.pseudo.is_after = false := by
  obtain ⟨s2, hs2⟩ := (trav_full_strong v hp hr (sz n)).1 n le_rfl rest s hd
  exact ⟨s2, hs2, postTraceN_getLast n rest,
    fun x hx => postTraceN_no_after n rest x hx⟩

/-- A visitor that never prunes and always continues. -/
def trivialVisitor : PostorderNodeMutTraversal Unit :=
  { process := fun s _ => (true, s), should_prune := fun _ _ => false }

/-- Witness for the amended C2 at a concrete tree and visitor. -/
theorem c2_postorder_amended_witness :
    ∃ s2, traverse_postorder_mut trivialVisitor ⟨nBoth, [], PseudoElementType.Normal⟩ () =
        some (true, s2, postTraceN nBoth []) ∧
      (postTraceN nBoth []).getLast? = some ⟨nBoth, [], PseudoElementType.Normal⟩ ∧
      ∀ x ∈ postTraceN nBoth [], x.pseudo.is_after = false :=
  c2_postorder_amended trivialVisitor (fun _ _ => rfl) (fun _ _ => rfl) nBoth [] () rfl

/-- C2 counterexample: on an initialized element with a resolved after-style
and no children, the restricted child sequence contains the `After`-tagged
handle, yet the postorder traversal passes only the node itself to `process`
— `process` is never invoked on the `After` pseudo-child, contradicting the
claim that the `After` pseudo-child participates in the postorder ordering. -/
theorem c2_counterexample :
    traverse_postorder_mut trivialVisitor hAfterRoot () =
      some (true, (), [hAfterRoot]) ∧
    childrenSeq hAfterRoot 3 =
      some [⟨nAfter, [], PseudoElementType.After styleA.display⟩] ∧
    PseudoElementType.is_after (PseudoElementType.After styleA.display) = true ∧
    PseudoElementType.is_after hAfterRoot.pseudo = false := by
  refine ⟨?_, rfl, rfl, rfl⟩
  obtain ⟨s2, hs2⟩ :=
    (trav_full_strong trivialVisitor (fun _ _ => rfl) (fun _ _ => rfl) (sz nAfter)).1
      nAfter le_rfl [] () rfl
  cases s2
  have htr : postTraceN nAfter [] = [⟨nAfter, [], PseudoElementType.Normal⟩] := by
    rw [postTraceN_def]
    rfl
  rw [htr] at hs2
  exact hs2

theorem iterNext_pseudo_parent (n : DomNode) (rest : List DomNode)
    (ps : PseudoElementType) (ld : LayoutDataWrapper)
    (hld : n.layoutData = some ld) (hps : ps ≠ PseudoElementType.Normal) :
    ∃ it2, childrenIterNext ⟨none, some ⟨n, rest, ps⟩⟩ = some (none, it2) := by
  rw [childrenIterNext]
  simp only
  rw [has_after_pseudo_some n rest ps ld hld]
  cases ha : ld.data.after_style with
  | some st =>
    simp only [Option.isSome_some]
    rw [if_neg hps]
    exact ⟨_, rfl⟩
  | none =>
    simp only [Option.isSome_none]
    exact ⟨_, rfl⟩

/-- C4 (amended): a pseudo-tagged handle's own `children()` sequence is
empty — for `Before`-tagged handles as well as `After`-tagged ones — so
pseudo-element handles never yield further pseudo-element children.  The
"single next real child" behavior belongs to the private `next_sibling`
operation used by the postorder traversal: for a `Before`-tagged handle it
returns the first ordinary DOM child of the underlying node. -/
theorem c4_pseudo_handle_children (n : DomNode) (rest : List DomNode)
    (ld : LayoutDataWrapper) (d : Display) (fuel : Nat)
    (hld : n.layoutData = some ld) :
    childrenSeq ⟨n, rest, PseudoElementType.Before d⟩ (fuel + 1) = some [] ∧
    childrenSeq ⟨n, rest, PseudoElementType.After d⟩ (fuel + 1) = some [] ∧
    ThreadSafeLayoutNode.next_sibling ⟨n, rest, PseudoElementType.Before d⟩ =
      headHandle n.children := by
  refine ⟨?_, ?_, next_sibling_before n rest d⟩
  · rw [childrenSeq, ThreadSafeLayoutNode.children]
    rw [first_child_pseudo n rest (PseudoElementType.Before d) (by simp)]
    show iterToList (fuel + 1) ⟨none, some ⟨n, rest, PseudoElementType.Before d⟩⟩ = some []
    rw [iterToList]
    obtain ⟨it2, hit⟩ :=
      iterNext_pseudo_parent n rest (PseudoElementType.Before d) ld hld (by simp)
    rw [hit]
  · rw [childrenSeq, ThreadSafeLayoutNode.children]
    rw [first_child_pseudo n rest (PseudoElementType.After d) (by simp)]
    show iterToList (fuel + 1) ⟨none, some ⟨n, rest, PseudoElementType.After d⟩⟩ = some []
    rw [iterToList]
    obtain ⟨it2, hit⟩ :=
      iterNext_pseudo_parent n rest (PseudoElementType.After d) ld hld (by simp)
    rw [hit]

/-- Witness for the amended C4 at a concrete node. -/
theorem c4_pseudo_handle_children_witness :
    childrenSeq ⟨nBoth, [], PseudoElementType.Before styleB.display⟩ (4 + 1) = some [] ∧
    childrenSeq ⟨nBoth, [], PseudoElementType.After styleB.display⟩ (4 + 1) = some [] ∧
    ThreadSafeLayoutNode.next_sibling ⟨nBoth, [], PseudoElementType.Before styleB.display⟩ =
      headHandle nBoth.children :=
  c4_pseudo_handle_children nBoth [] ldBoth styleB.display 4 rfl

/-- C4 counterexample: on an initialized element with a resolved before-style
and one ordinary child, the `Before`-tagged handle's `children()` sequence is
empty — not the single next real child that the claim asserts (that child is
only reachable through the private `next_sibling`). -/
theorem c4_counterexample :
    childrenSeq ⟨nBoth, [], PseudoElementType.Before styleB.display⟩ 5 = some [] ∧
    ThreadSafeLayoutNode.next_sibling ⟨nBoth, [], PseudoElementType.Before styleB.display⟩ =
      some ⟨childNode, [], PseudoElementType.Normal⟩ ∧
    ([] : List ThreadSafeLayoutNode) ≠ [⟨childNode, [], PseudoElementType.Normal⟩] := by
  refine ⟨rfl, rfl, ?_⟩
  simp

/-- Model of `selectors::parser::NamespaceConstraint`. -/
inductive NamespaceConstraint where
  | Any
  | Specific (ns : String)
deriving DecidableEq, Repr

/-- Model of `selectors::parser::AttrSelector`: the attribute name as written,
its lowercased form, and the namespace constraint. -/
structure AttrSelector where
  name : String
  lower_name : String
  ns : NamespaceConstraint
deriving DecidableEq, Repr

/-- The element view (`LayoutElement`, `wrapper.rs` 371-376).  Modelled from
the spec: the element's raw attribute storage (read through the script-side
`get_attr_val_for_layout`/`get_attr_vals_for_layout`, not under `src/`) is a
list of (namespace, name, value) entries, and
`html_element_in_html_document_for_layout` is a stored boolean. -/
structure LayoutElement where
  attrs : List (String × String × String)
  html_element_in_html_document : Bool
deriving DecidableEq, Repr

/-- `LayoutElement::is_html_element_in_html_document` (`wrapper.rs` 540-544). -/
def LayoutElement.is_html_element_in_html_document (e : LayoutElement) : Bool :=
  e.html_element_in_html_document

/-- `TElementAttributes::get_attr` for `LayoutElement` (`wrapper.rs` 562-567):
first value whose namespace and name both match. -/
def LayoutElement.get_attr (e : LayoutElement) (ns : String) (name : String) :
    Option String :=
  (e.attrs.find? fun a => a.1 == ns && a.2.1 == name).map fun a => a.2.2

/-- `TElementAttributes::get_attrs` for `LayoutElement` (`wrapper.rs` 569-574):
all values with the given name, in any namespace. -/
def LayoutElement.get_attrs (e : LayoutElement) (name : String) : List String :=
  e.attrs.filterMap fun a => if a.2.1 == name then some a.2.2 else none

/-- `LayoutElement::match_attr` (`wrapper.rs` 524-538): chooses the lowercased
selector name when the element is an HTML element in an HTML document, the
case-sensitive name otherwise, then tests the first matching value (specific
namespace) or any matching value (any namespace). -/
def LayoutElement.match_attr (e : LayoutElement) (attr : AttrSelector)
    (test : String → Bool) : Bool :=
  let name := if e.is_html_element_in_html_document then attr.lower_name else attr.name
  match attr.ns with
  | NamespaceConstraint.Specific ns => (e.get_attr ns name).elim false test
  | NamespaceConstraint.Any => (e.get_attrs name).any test

/-- The spec's description of the attribute lookup performed during selector
matching, parameterized by the name actually used: first matching value under
a specific namespace constraint, any matching value otherwise. -/
def attrLookupByName (e : LayoutElement) (nsc : NamespaceConstraint)
    (name : String) (test : String → Bool) : Bool :=
  match nsc with
  | NamespaceConstraint.Specific ns => (e.get_attr ns name).elim false test
  | NamespaceConstraint.Any => (e.get_attrs name).any test

/-- C5: attribute-selector matching looks the attribute up by the lowercased
name exactly when the element is an HTML element in an HTML document, and by
the case-sensitive name otherwise: `match_attr` equals the name-indexed
lookup at the correspondingly chosen name, is insensitive to the
case-sensitive name in the HTML-document case, and is insensitive to the
lowercased name otherwise. -/
theorem c5_match_attr_name_choice (e : LayoutElement) (attr : AttrSelector)
    (test : String → Bool) :
    (e.match_attr attr test =
      attrLookupByName e attr.ns
        (if e.is_html_element_in_html_document then attr.lower_name else attr.name)
        test) ∧
    (e.is_html_element_in_html_document = true →
      ∀ other, e.match_attr { attr with name := other } test = e.match_attr attr test) ∧
    (e.is_html_element_in_html_document = false →
      ∀ other, e.match_attr { attr with lower_name := other } test = e.match_attr attr test) := by
  refine ⟨rfl, ?_, ?_⟩
  · intro hhtml other
    rw [LayoutElement.match_attr, LayoutElement.match_attr]
    rw [LayoutElement.is_html_element_in_html_document] at *
    rw [hhtml]
    rfl
  · intro hhtml other
    rw [LayoutElement.match_attr, LayoutElement.match_attr]
    rw [LayoutElement.is_html_element_in_html_document] at *
    rw [hhtml]
    rfl

/-- A concrete element for the C5 witness: an HTML element in an HTML
document carrying attribute `class="v"`. -/
def exampleElement : LayoutElement :=
  { attrs := [("", "class", "v")], html_element_in_html_document := true }

/-- A concrete attribute selector written with a capitalized name. -/
def exampleSelector : AttrSelector :=
  { name := "CLASS", lower_name := "class", ns := NamespaceConstraint.Specific "" }

/-- Witness for C5: in an HTML document the case-sensitive spelling of the
selector name is irrelevant. -/
theorem c5_match_attr_name_choice_witness :
    exampleElement.match_attr { exampleSelector with name := "ClAsS" }
        (fun s => s == "v") =
      exampleElement.match_attr exampleSelector (fun s => s == "v") :=
  (c5_match_attr_name_choice exampleElement exampleSelector (fun s => s == "v")).2.1
    rfl "ClAsS"

/-- `ThreadSafeLayoutNode::text_content` (`wrapper.rs` 914-950).  For a
pseudo-tagged handle, reads the corresponding before/after style's `content`
value (both `unwrap`s modelled by `none` = panic); for a real node, returns
the text data of a text node, the current value of an input or textarea form
control, and panics (`none`) otherwise. -/
def ThreadSafeLayoutNode.text_content (h : ThreadSafeLayoutNode) :
    Option (List ContentItem) :=
  if h.pseudo ≠ PseudoElementType.Normal then
    match h.node.layoutData with
    | none => none
    | some ld =>
      let style := if h.pseudo.is_before then ld.data.before_style else ld.data.after_style
      match style with
      | none => none
      | some st =>
        some (match st.content with
              | ContentT.Content value => if value.isEmpty then [] else value
              | _ => [])
  else
    match h.node.kind with
    | NodeKind.Text data => some [ContentItem.String data]
    | NodeKind.Element (ElemKind.Input value _) => some [ContentItem.String value]
    | NodeKind.Element (ElemKind.TextArea value) => some [ContentItem.String value]
    | _ => none

/-- The generated-content value list of a style, as the spec describes it:
the resolved content value list, empty when the content value is an empty
content list (or not a content list at all). -/
def contentValueList (st : Style) : List ContentItem :=
  match st.content with
  | ContentT.Content value => value
  | _ => []

theorem text_content_eq_contentValueList (st : Style) :
    (match st.content with
     | ContentT.Content value => if value.isEmpty then [] else value
     | _ => []) = contentValueList st := by
  rw [contentValueList]
  cases st.content with
  | Content value =>
    cases value with
    | nil => rfl
    | cons a l => rfl
  | normal => rfl
  | noContent => rfl

/-- C6: `text_content` returns the resolved generated-content value list for
pseudo-tagged handles (empty when the content value is an empty content
list), the node's text data for text nodes, the control's current value for
input and textarea form controls, and panics for any other real node. -/
theorem c6_text_content (n : DomNode) (rest : List DomNode) :
    (∀ d ld st, n.layoutData = some ld → ld.data.before_style = some st →
      ThreadSafeLayoutNode.text_content ⟨n, rest, PseudoElementType.Before d⟩ =
        some (contentValueList st)) ∧
    (∀ d ld st, n.layoutData = some ld → ld.data.after_style = some st →
      ThreadSafeLayoutNode.text_content ⟨n, rest, PseudoElementType.After d⟩ =
        some (contentValueList st)) ∧
    (∀ s, n.kind = NodeKind.Text s →
      ThreadSafeLayoutNode.text_content ⟨n, rest, PseudoElementType.Normal⟩ =
        some [ContentItem.String s]) ∧
    (∀ value size, n.kind = NodeKind.Element (ElemKind.Input value size) →
      ThreadSafeLayoutNode.text_content ⟨n, rest, PseudoElementType.Normal⟩ =
        some [ContentItem.String value]) ∧
    (∀ value, n.kind = NodeKind.Element (ElemKind.TextArea value) →
      ThreadSafeLayoutNode.text_content ⟨n, rest, PseudoElementType.Normal⟩ =
        some [ContentItem.String value]) ∧
    ((∀ s, n.kind ≠ NodeKind.Text s) →
     (∀ value size, n.kind ≠ NodeKind.Element (ElemKind.Input value size)) →
     (∀ value, n.kind ≠ NodeKind.Element (ElemKind.TextArea value)) →
      ThreadSafeLayoutNode.text_content ⟨n, rest, PseudoElementType.Normal⟩ = none) := by
  refine ⟨?_, ?_, ?_, ?_, ?_, ?_⟩
  · intro d ld st hld hb
    rw [ThreadSafeLayoutNode.text_content]
    rw [if_pos (by simp)]
    rw [hld]
    simp only [PseudoElementType.is_before, reduceIte]
    rw [hb]
    simp only
    rw [text_content_eq_contentValueList]
  · intro d ld st hld ha
    rw [ThreadSafeLayoutNode.text_content]
    rw [if_pos (by simp)]
    rw [hld]
    simp only [PseudoElementType.is_before, Bool.false_eq_true, reduceIte]
    rw [ha]
    simp only
    rw [text_content_eq_contentValueList]
  · intro s hk
    rw [ThreadSafeLayoutNode.text_content]
    rw [if_neg (by simp)]
    rw [hk]
  · intro value size hk
    rw [ThreadSafeLayoutNode.text_content]
    rw [if_neg (by simp)]
    rw [hk]
  · intro value hk
    rw [ThreadSafeLayoutNode.text_content]
    rw [if_neg (by simp)]
    rw [hk]
  · intro h1 h2 h3
    rw [ThreadSafeLayoutNode.text_content]
    rw [if_neg (by simp)]
    cases hk : n.kind with
    | Document => rfl
    | Comment s => rfl
    | Text s => exact absurd hk (h1 s)
    | Element ek =>
      cases ek with
      | Input v sz => exact absurd hk (h2 v sz)
      | TextArea v => exact absurd hk (h3 v)
      | OtherElement => rfl

/-- An `<input value="hi">` element wrapped in the restricted view. -/
def inputNode : DomNode :=
  DomNode.mk 4 (NodeKind.Element (ElemKind.Input "hi" 20)) none []

/-- Witness for C6: the spec's `<input value="hi">` scenario — `text_content`
returns the single-element list containing `"hi"`. -/
theorem c6_text_content_witness :
    ThreadSafeLayoutNode.text_content ⟨inputNode, [], PseudoElementType.Normal⟩ =
      some [ContentItem.String "hi"] :=
  (c6_text_content inputNode []).2.2.2.1 "hi" 20 rfl

/-- Modelled from the spec: `is_whitespace` (`util::str`, not under `src/`) —
true exactly when every character of the string is whitespace. -/
def is_whitespace (s : String) : Bool :=
  s.toList.all fun c => c.isWhitespace

/-- Modelled from the spec: `style()` (`css::node_style::StyledNode`, not
under `src/`) — the handle's resolved computed style from the side table:
the before/after slot for pseudo-tagged handles, the normal slot otherwise;
fails (`none`) when absent. -/
def ThreadSafeLayoutNode.style (h : ThreadSafeLayoutNode) : Option Style :=
  h.node.layoutData.bind fun ld =>
    match h.pseudo with
    | PseudoElementType.Normal => ld.shared_data.style
    | PseudoElementType.Before _ => ld.data.before_style
    | PseudoElementType.After _ => ld.data.after_style

/-- `ThreadSafeLayoutNode::is_ignorable_whitespace` (`wrapper.rs` 801-823):
false for non-text nodes; false when the text data is not all whitespace;
otherwise true exactly when the inherited `white-space` computed value is
`normal` (the style read may panic, modelled by `none`). -/
def ThreadSafeLayoutNode.is_ignorable_whitespace (h : ThreadSafeLayoutNode) :
    Option Bool :=
  match h.node.kind with
  | NodeKind.Text data =>
    if ¬ is_whitespace data then
      some false
    else
      h.style.map fun st =>
        match st.white_space with
        | WhiteSpace.normal => true
        | _ => false
  | _ => some false

/-- C7: the whitespace-collapse predicate answers `true` exactly for a text
node whose content is entirely whitespace and whose inherited `white-space`
computed value is `normal`; it answers `false` for a text node with
non-whitespace content regardless of `white-space`, and `false` for any
non-text node. -/
theorem c7_ignorable_whitespace (h : ThreadSafeLayoutNode) :
    (∀ st, h.style = some st →
      (h.is_ignorable_whitespace = some true ↔
        (∃ s, h.node.kind = NodeKind.Text s ∧ is_whitespace s = true) ∧
          st.white_space = WhiteSpace.normal)) ∧
    (∀ s, h.node.kind = NodeKind.Text s → is_whitespace s = false →
      h.is_ignorable_whitespace = some false) ∧
    ((∀ s, h.node.kind ≠ NodeKind.Text s) →
      h.is_ignorable_whitespace = some false) := by
  refine ⟨?_, ?_, ?_⟩
  · intro st hst
    rw [ThreadSafeLayoutNode.is_ignorable_whitespace]
    cases hk : h.node.kind with
    | Text data =>
      simp only
      by_cases hw : is_whitespace data = true
      · rw [if_neg (by simp [hw]), hst]
        show (some (match st.white_space with
                    | WhiteSpace.normal => true
                    | _ => false) = some true) ↔ _
        cases hws : st.white_space with
        | normal => exact ⟨fun _ => ⟨⟨data, rfl, hw⟩, rfl⟩, fun _ => rfl⟩
        | pre => simp
        | nowrap => simp
      · rw [if_pos (by simpa using hw)]
        constructor
        · intro heq
          cases heq
        · rintro ⟨⟨s, hs, hsw⟩, hn⟩
          simp only [NodeKind.Text.injEq] at hs
          subst hs
          exact absurd hsw hw
    | Document => simp
    | Comment data => simp
    | Element ek => simp
  · intro s hk hw
    rw [ThreadSafeLayoutNode.is_ignorable_whitespace, hk]
    simp only
    rw [if_pos (by simp [hw])]
  · intro hk
    rw [ThreadSafeLayoutNode.is_ignorable_whitespace]
    cases hkk : h.node.kind with
    | Text s => exact absurd hkk (hk s)
    | Document => rfl
    | Comment data => rfl
    | Element ek => rfl

/-- Side table whose normal style has `white-space: normal`. -/
def ldWsNormal : LayoutDataWrapper :=
  { chan := some 0,
    shared_data := { style := some { display := Display.inline,
                                     content := ContentT.normal,
                                     white_space := WhiteSpace.normal } },
    data := { before_style := none, after_style := none,
              restyle_damage := 0, flags := 0 } }

/-- Side table whose normal style has `white-space: pre`. -/
def ldWsPre : LayoutDataWrapper :=
  { chan := some 0,
    shared_data := { style := some { display := Display.inline,
                                     content := ContentT.normal,
                                     white_space := WhiteSpace.pre } },
    data := { before_style := none, after_style := none,
              restyle_damage := 0, flags := 0 } }

/-- A text node holding three spaces, styled `white-space: normal`. -/
def wsTextNormal : DomNode := DomNode.mk 5 (NodeKind.Text "   ") (some ldWsNormal) []

/-- A text node holding three spaces, styled `white-space: pre`. -/
def wsTextPre : DomNode := DomNode.mk 6 (NodeKind.Text "   ") (some ldWsPre) []

/-- A text node holding `"a "`, styled `white-space: normal`. -/
def wsTextA : DomNode := DomNode.mk 7 (NodeKind.Text "a ") (some ldWsNormal) []

/-- Witness for C7: the three spec scenarios — three spaces under
`white-space: normal` collapse, three spaces under `pre` do not, and `"a "`
never collapses. -/
theorem c7_ignorable_whitespace_witness :
    ThreadSafeLayoutNode.is_ignorable_whitespace
        ⟨wsTextNormal, [], PseudoElementType.Normal⟩ = some true ∧
    ThreadSafeLayoutNode.is_ignorable_whitespace
        ⟨wsTextPre, [], PseudoElementType.Normal⟩ ≠ some true ∧
    ThreadSafeLayoutNode.is_ignorable_whitespace
        ⟨wsTextA, [], PseudoElementType.Normal⟩ = some false := by
  refine ⟨?_, ?_, ?_⟩
  · exact ((c7_ignorable_whitespace ⟨wsTextNormal, [], PseudoElementType.Normal⟩).1
      _ rfl).mpr ⟨⟨"   ", rfl, by decide⟩, rfl⟩
  · intro hcontra
    have := ((c7_ignorable_whitespace ⟨wsTextPre, [], PseudoElementType.Normal⟩).1
      _ rfl).mp hcontra
    cases this.2
  · exact (c7_ignorable_whitespace ⟨wsTextA, [], PseudoElementType.Normal⟩).2.1
      "a " rfl (by decide)

/-- The slice of `SharedLayoutContext` (`context.rs`) that
`layout_parent_node` reads: the optional reflow root, as an `OpaqueNode`
(a stable node identity, modelled by the node id). -/
structure SharedLayoutContext where
  reflow_root : Option Nat
deriving DecidableEq, Repr

/-- The full-access view (`LayoutNode`, `wrapper.rs` 82-88), together with the
DOM context its parent pointer denotes: the chain of ancestors, nearest
first. -/
structure LayoutNode where
  node : DomNode
  ancestors : List DomNode

/-- `selectors::Node::parent_node` for `LayoutNode` (`wrapper.rs` 221-225):
follows the parent pointer. -/
def LayoutNode.parent_node (ln : LayoutNode) : Option LayoutNode :=
  match ln.ancestors with
  | [] => none
  | p :: ps => some ⟨p, ps⟩

/-- The wrapper's conversion to `OpaqueNode` (`wrapper.rs` 174-177): the
stable identity derived from the node address. -/
def LayoutNode.opaqueNodeId (ln : LayoutNode) : Nat :=
  ln.node.id

/-- `LayoutNode::layout_parent_node` (`wrapper.rs` 200-213): panics (`none`)
when no reflow root is configured; returns no parent at the reflow root;
otherwise follows the parent pointer. -/
def LayoutNode.layout_parent_node (ln : LayoutNode) (shared : SharedLayoutContext) :
    Option (Option LayoutNode) :=
  match shared.reflow_root with
  | none => none
  | some reflow_root =>
    some (if ln.opaqueNodeId = reflow_root then none else ln.parent_node)

/-- C8: the reflow-parent accessor aborts when no reflow root is configured,
returns no parent when the node is the configured reflow root, and returns
the node's parent otherwise. -/
theorem c8_layout_parent_node (ln : LayoutNode) (shared : SharedLayoutContext) :
    (shared.reflow_root = none → ln.layout_parent_node shared = none) ∧
    (∀ r, shared.reflow_root = some r → ln.node.id = r →
      ln.layout_parent_node shared = some none) ∧
    (∀ r, shared.reflow_root = some r → ln.node.id ≠ r →
      ln.layout_parent_node shared = some ln.parent_node) := by
  refine ⟨?_, ?_, ?_⟩
  · intro hroot
    rw [LayoutNode.layout_parent_node, hroot]
  · intro r hroot hid
    rw [LayoutNode.layout_parent_node, hroot]
    simp only
    rw [if_pos (show ln.opaqueNodeId = r from hid)]
  · intro r hroot hid
    rw [LayoutNode.layout_parent_node, hroot]
    simp only
    rw [if_neg (show ¬ ln.opaqueNodeId = r from hid)]

/-- A two-node ancestor chain for the C8 witness. -/
def parentDom : DomNode := DomNode.mk 10 NodeKind.Document none [ ]

/-- A view of `childNode` whose parent is `parentDom`. -/
def childView : LayoutNode := ⟨childNode, [parentDom]⟩

/-- Witness for C8: with reflow root configured at a different node, the
accessor returns the parent; at the node itself it returns no parent; with no
reflow root it aborts. -/
theorem c8_layout_parent_node_witness :
    (childView.layout_parent_node ⟨none⟩ = none) ∧
    (childView.layout_parent_node ⟨some 2⟩ = some none) ∧
    (childView.layout_parent_node ⟨some 99⟩ = some (childView.parent_node)) :=
  ⟨(c8_layout_parent_node childView ⟨none⟩).1 rfl,
   (c8_layout_parent_node childView ⟨some 2⟩).2.1 2 rfl rfl,
   (c8_layout_parent_node childView ⟨some 99⟩).2.2 99 rfl (by decide)⟩

/-- `LayoutNode::initialize_layout_data` (`wrapper.rs` 182-194): attaches a
default side table when none is present, and leaves an existing side table
untouched.  The mutation is modelled by returning the updated node; `chan` is
the opaque layout channel. -/
def initialize_layout_data (n : DomNode) (chan : Nat) : DomNode :=
  match n.layoutData with
  | none =>
    n.withLayoutData (some { chan := some chan,
                             shared_data := { style := none },
                             data := PrivateLayoutData.new })
  | some _ => n

/-- C9: `initialize_layout_data` is idempotent — a second call (with any
channel) is a no-op, leaving the side table's style and damage fields exactly
as the first call left them; when a side table is already attached the call
does nothing, and when none is attached it installs the default side table. -/
theorem c9_initialize_idempotent (n : DomNode) (chan chan2 : Nat) :
    (initialize_layout_data (initialize_layout_data n chan) chan2 =
      initialize_layout_data n chan) ∧
    (∀ w, n.layoutData = some w → initialize_layout_data n chan = n) ∧
    (n.layoutData = none →
      (initialize_layout_data n chan).layoutData =
        some { chan := some chan,
               shared_data := { style := none },
               data := PrivateLayoutData.new }) ∧
    ((initialize_layout_data (initialize_layout_data n chan) chan2).layoutData.map
        (fun w => (w.shared_data.style, w.data.before_style, w.data.after_style,
                   w.data.restyle_damage, w.data.flags)) =
      (initialize_layout_data n chan).layoutData.map
        (fun w => (w.shared_data.style, w.data.before_style, w.data.after_style,
                   w.data.restyle_damage, w.data.flags))) := by
  have hsecond : initialize_layout_data (initialize_layout_data n chan) chan2 =
      initialize_layout_data n chan := by
    cases hld : n.layoutData with
    | none =>
      have h1 : (initialize_layout_data n chan).layoutData =
          some { chan := some chan,
                 shared_data := { style := none },
                 data := PrivateLayoutData.new } := by
        rw [initialize_layout_data, hld]
        simp only
        rw [DomNode.layoutData_withLayoutData]
      rw [initialize_layout_data, h1]
    | some w =>
      have h1 : initialize_layout_data n chan = n := by
        rw [initialize_layout_data, hld]
      rw [h1, initialize_layout_data, hld]
  refine ⟨hsecond, ?_, ?_, ?_⟩
  · intro w hld
    rw [initialize_layout_data, hld]
  · intro hld
    rw [initialize_layout_data, hld]
    simp only
    rw [DomNode.layoutData_withLayoutData]
  · rw [hsecond]

/-- A node with no side table attached. -/
def bareNode : DomNode := DomNode.mk 11 (NodeKind.Element ElemKind.OtherElement) none []

/-- Witness for C9 at a concrete uninitialized node. -/
theorem c9_initialize_idempotent_witness :
    (initialize_layout_data (initialize_layout_data bareNode 7) 8 =
      initialize_layout_data bareNode 7) ∧
    (∀ w, bareNode.layoutData = some w → initialize_layout_data bareNode 7 = bareNode) ∧
    (bareNode.layoutData = none →
      (initialize_layout_data bareNode 7).layoutData =
        some { chan := some 7,
               shared_data := { style := none },
               data := PrivateLayoutData.new }) ∧
    ((initialize_layout_data (initialize_layout_data bareNode 7) 8).layoutData.map
        (fun w => (w.shared_data.style, w.data.before_style, w.data.after_style,
                   w.data.restyle_damage, w.data.flags)) =
      (initialize_layout_data bareNode 7).layoutData.map
        (fun w => (w.shared_data.style, w.data.before_style, w.data.after_style,
                   w.data.restyle_damage, w.data.flags))) :=
  c9_initialize_idempotent bareNode 7 8

/-- `ThreadSafeLayoutNode::restyle_damage` (`wrapper.rs` 859-862): reads the
damage bitset through `unwrap` — panics (`none`) when no side table is
attached. -/
def ThreadSafeLayoutNode.restyle_damage (h : ThreadSafeLayoutNode) : Option Nat :=
  h.node.layoutData.map fun ld => ld.data.restyle_damage

/-- `ThreadSafeLayoutNode::set_restyle_damage` (`wrapper.rs` 865-871): writes
the damage bitset; panics (`none`) when no side table is attached.  The
mutation is modelled by returning the updated handle. -/
def ThreadSafeLayoutNode.set_restyle_damage (h : ThreadSafeLayoutNode)
    (damage : Nat) : Option ThreadSafeLayoutNode :=
  match h.node.layoutData with
  | some ld =>
    some { h with
      node := h.node.withLayoutData
        (some { ld with data := { ld.data with restyle_damage := damage } }) }
  | none => none

/-- `ThreadSafeLayoutNode::flags` (`wrapper.rs` 874-881): reads the flag
bitset; panics (`none`) when no side table is attached. -/
def ThreadSafeLayoutNode.flags (h : ThreadSafeLayoutNode) : Option Nat :=
  match h.node.layoutData with
  | none => none
  | some ld => some ld.data.flags

/-- `ThreadSafeLayoutNode::insert_flags` (`wrapper.rs` 884-890): bitset
insertion (`flags.insert(new_flags)` = bitwise or); panics (`none`) when no
side table is attached. -/
def ThreadSafeLayoutNode.insert_flags (h : ThreadSafeLayoutNode)
    (new_flags : Nat) : Option ThreadSafeLayoutNode :=
  match h.node.layoutData with
  | some ld =>
    some { h with
      node := h.node.withLayoutData
        (some { ld with data := { ld.data with
          flags := ld.data.flags ||| new_flags } }) }
  | none => none

/-- `ThreadSafeLayoutNode::remove_flags` (`wrapper.rs` 893-899): bitset
removal (`flags.remove(flags)` = and-not); panics (`none`) when no side
table is attached. -/
def ThreadSafeLayoutNode.remove_flags (h : ThreadSafeLayoutNode)
    (flags : Nat) : Option ThreadSafeLayoutNode :=
  match h.node.layoutData with
  | some ld =>
    some { h with
      node := h.node.withLayoutData
        (some { ld with data := { ld.data with
          flags := ld.data.flags ^^^ (ld.data.flags &&& flags) } }) }
  | none => none

/-- C10: on a node with no attached side table, the restyle-damage getter and
setter and the flag-bitset insert and remove operations all abort (`none` in
the panic model) — none of them returns a value or creates a side table. -/
theorem c10_side_table_panics (h : ThreadSafeLayoutNode)
    (damage fl : Nat) (hld : h.node.layoutData = none) :
    h.restyle_damage = none ∧
    h.set_restyle_damage damage = none ∧
    h.flags = none ∧
    h.insert_flags fl = none ∧
    h.remove_flags fl = none := by
  refine ⟨?_, ?_, ?_, ?_, ?_⟩
  · rw [ThreadSafeLayoutNode.restyle_damage, hld]
    rfl
  · rw [ThreadSafeLayoutNode.set_restyle_damage, hld]
  · rw [ThreadSafeLayoutNode.flags, hld]
  · rw [ThreadSafeLayoutNode.insert_flags, hld]
  · rw [ThreadSafeLayoutNode.remove_flags, hld]

/-- Witness for C10 at a concrete uninitialized node. -/
theorem c10_side_table_panics_witness :
    ThreadSafeLayoutNode.restyle_damage ⟨bareNode, [], PseudoElementType.Normal⟩ = none ∧
    ThreadSafeLayoutNode.set_restyle_damage ⟨bareNode, [], PseudoElementType.Normal⟩ 3 = none ∧
    ThreadSafeLayoutNode.flags ⟨bareNode, [], PseudoElementType.Normal⟩ = none ∧
    ThreadSafeLayoutNode.insert_flags ⟨bareNode, [], PseudoElementType.Normal⟩ 1 = none ∧
    ThreadSafeLayoutNode.remove_flags ⟨bareNode, [], PseudoElementType.Normal⟩ 1 = none :=
  c10_side_table_panics ⟨bareNode, [], PseudoElementType.Normal⟩ 3 1 rfl
